import Mathlib

/-!
Shallow embedding of the SkiTouring static site's client-side
filtering-and-rendering pipeline, covering the two script variants:
the Leaflet variant (`docs/js/main.js`) and the Mapbox variant
(`docs/js/main_mapbox.js`).

Conventions of the embedding:
* JS strings are Lean `String`s; an absent (`undefined`) string property is
  `Option.none`; `s.getD ""` models the fact that `undefined` behaves like
  the falsy empty string in the `||` / truthiness tests the code performs.
* JS numbers that the code merely stringifies or compares are modelled as
  `Int` (no claim under verification depends on float semantics).
* DOM reads/writes and mapbox/leaflet API calls are modelled as explicit
  state records and emitted call descriptions.
-/

/-- Leading- and trailing-whitespace removal on a character list:
the list-level behaviour of JS `String.prototype.trim`. -/
def trimL (l : List Char) : List Char :=
  ((l.dropWhile Char.isWhitespace).reverse.dropWhile Char.isWhitespace).reverse

/-- `norm` from both scripts: `(s ?? "").toString().trim().toLowerCase()`,
applied to a string already known to be a string (trim, then per-character
lower-casing). -/
def normS (s : String) : String := ⟨(trimL s.data).map Char.toLower⟩

/-- `norm` applied to an optional property (`undefined` coalesces to `""`). -/
def normOpt (s : Option String) : String := normS (s.getD "")

/-- JS `a || b` on strings: the empty string is the only falsy string. -/
def jsOrS (a b : String) : String := if a = "" then b else a

/-- Per-character lower-casing (the behaviour of `toLowerCase` /
`["downcase", ...]` on this data). -/
def lowerS (s : String) : String := ⟨s.data.map Char.toLower⟩

/-- JS `hay.includes(q)`: `q` occurs contiguously inside `hay`. -/
def strIncludes (hay q : String) : Bool := decide (q.data <:+: hay.data)

/-- The `properties` object of one GeoJSON tour feature (section 3 of the
data model): every field is optional. -/
structure TourProps where
  title : Option String := none
  slug : Option String := none
  page : Option String := none
  region : Option String := none
  province : Option String := none
  country : Option String := none
  subtitle : Option String := none
  activity : Option String := none
  difficulty : Option String := none
  direction : Option String := none
  direcrtion : Option String := none
  cover : Option String := none
  gpx : Option String := none
  vert_m : Option Int := none
  distance_km : Option Int := none
deriving DecidableEq, Repr

/-- A JSON coordinate value as traversed by `extendBoundsWithCoords`:
`null`/`undefined`, a number, or a (possibly nested) array. -/
inductive JVal where
  | null : JVal
  | num (x : Int) : JVal
  | arr (elems : List JVal) : JVal

/-- JS truthiness of a coordinate value (`!coords` / `!g.coordinates`). -/
def jvalTruthy : JVal → Bool
  | .null => false
  | .num x => x != 0
  | .arr _ => true

/-- A GeoJSON geometry as read by the bounds helper (only `coordinates`
is consulted there). -/
structure Geom where
  coordinates : JVal

/-- One GeoJSON feature: `properties` and `geometry` may each be absent. -/
structure Feature where
  properties : Option TourProps := none
  geometry : Option Geom := none

/-- UI filter state of the Leaflet variant: raw values of the `#q` text
input and the `#difficulty` / `#activity` selects (a missing element's
`?.value` is `undefined`, which `norm` turns into `""`, so `""` models
both "unset" and "element absent"). -/
structure FilterStateMain where
  q : String := ""
  difficulty : String := ""
  activity : String := ""
deriving DecidableEq, Repr

/-- UI filter state of the Mapbox variant: `#q`, `#province`, `#region`. -/
structure FilterStateMapbox where
  q : String := ""
  province : String := ""
  region : String := ""
deriving DecidableEq, Repr

/-- The search haystack of `passesFilters` in `main.js`:
`` `${norm(p.title)} ${norm(p.region)} ${norm(p.subtitle)} ${norm(p.activity)} ${norm(p.difficulty)}` ``. -/
def hayMain (p : TourProps) : String :=
  normOpt p.title ++ " " ++ normOpt p.region ++ " " ++ normOpt p.subtitle ++ " " ++
    normOpt p.activity ++ " " ++ normOpt p.difficulty

/-- `passesFilters` of the Leaflet variant (`main.js`). -/
def passesFiltersMain (st : FilterStateMain) (p : TourProps) : Bool :=
  let q := normS st.q
  let diff := normS st.difficulty
  let act := normS st.activity
  if q ≠ "" ∧ strIncludes (hayMain p) q = false then false
  else if diff ≠ "" ∧ normOpt p.difficulty ≠ diff then false
  else if act ≠ "" ∧ normOpt p.activity ≠ act then false
  else true

/-- The search haystack of `passesFilters` in `main_mapbox.js`:
`` `${norm(p.title)} ${norm(p.region)} ${norm(p.province)} ${norm(p.subtitle)} ${norm(p.country)}` ``. -/
def hayMapbox (p : TourProps) : String :=
  normOpt p.title ++ " " ++ normOpt p.region ++ " " ++ normOpt p.province ++ " " ++
    normOpt p.subtitle ++ " " ++ normOpt p.country

/-- `passesFilters` of the Mapbox variant (`main_mapbox.js`). -/
def passesFiltersMapbox (st : FilterStateMapbox) (p : TourProps) : Bool :=
  let q := normS st.q
  let prov := normS st.province
  let reg := normS st.region
  if q ≠ "" ∧ strIncludes (hayMapbox p) q = false then false
  else if prov ≠ "" ∧ normOpt p.province ≠ prov then false
  else if reg ≠ "" ∧ normOpt p.region ≠ reg then false
  else true

example : passesFiltersMain ⟨"", "", ""⟩ {} = true := by decide
example : passesFiltersMain ⟨"Gin", "", ""⟩ { title := some "Ginpeak" } = true := by decide
example : passesFiltersMain ⟨"xyz", "", ""⟩ { title := some "Ginpeak" } = false := by decide
example : passesFiltersMain ⟨"", "Advanced", ""⟩ { difficulty := some "advanced" } = true := by
  decide
example : passesFiltersMain ⟨"", "Advanced", ""⟩ { difficulty := some "intermediate" } = false := by
  decide
example : passesFiltersMapbox ⟨"whis", "", ""⟩ { region := some "Whistler" } = true := by decide

/-- `trackColorFromProps` (`main_mapbox.js`):
`norm(p?.direction || p?.direcrtion || "")` mapped to a paint colour. -/
def trackColorFromProps (p : TourProps) : String :=
  let d := normS (jsOrS (p.direction.getD "") (jsOrS (p.direcrtion.getD "") ""))
  if d = "up" ∨ d = "ascent" then "#1f6feb"
  else if d = "down" ∨ d = "descent" then "#b64a4a"
  else if d = "traverse" ∨ d = "cross" then "#b000b5"
  else "#1f6feb"

/-- The layer paint expression of `ensureSourceAndLayers` (both the line and
the circle layer use the same expression):
`["downcase", ["coalesce", ["get", "direction"], ["get", "direcrtion"], ""]]`
matched against the six direction keywords.  `coalesce` takes the first
non-null field (not the first truthy one), and no trimming occurs. -/
def layerDirectionColor (p : TourProps) : String :=
  let d := lowerS ((p.direction.or p.direcrtion).getD "")
  if d = "up" ∨ d = "ascent" then "#1f6feb"
  else if d = "down" ∨ d = "descent" then "#b64a4a"
  else if d = "traverse" ∨ d = "cross" then "#b000b5"
  else "#1f6feb"

/-- Modelled from the claim's words (C5), for refinement comparison only:
read the direction value from the `direction` field and, only when that
field is absent, from the misspelled field `direcrtion`; compare it
case-insensitively against the six keywords. -/
def claimTrackColor (p : TourProps) : String :=
  let d := lowerS (match p.direction with
            | some v => v
            | none => p.direcrtion.getD "")
  if d = "up" ∨ d = "ascent" then "#1f6feb"
  else if d = "down" ∨ d = "descent" then "#b64a4a"
  else if d = "traverse" ∨ d = "cross" then "#b000b5"
  else "#1f6feb"

/-- A `window.open(url, target, features)` call description. -/
structure WindowOpenCall where
  url : String
  target : String
  features : String
deriving DecidableEq, Repr

/-- `openTour` (identical in both variants):
`const url = p.page || (p.slug ? `./tours/${p.slug}.html` : null);`
`if (!url) return; window.open(url, "_blank", "noopener,noreferrer");`
`none` means no `window.open` call is made. -/
def openTour (p : TourProps) : Option WindowOpenCall :=
  let url : Option String :=
    if p.page.getD "" ≠ "" then some (p.page.getD "")
    else if p.slug.getD "" ≠ "" then some ("./tours/" ++ p.slug.getD "" ++ ".html")
    else none
  match url with
  | none => none
  | some u => some { url := u, target := "_blank", features := "noopener,noreferrer" }

/-- Worker for `jsSetDedup`: `seen` is the set of values already emitted. -/
def jsSetDedupAux (seen : List String) : List String → List String
  | [] => []
  | a :: rest =>
      if a ∈ seen then jsSetDedupAux seen rest
      else a :: jsSetDedupAux (a :: seen) rest

/-- `Array.from(new Set(...))`: duplicate removal keeping first occurrences. -/
def jsSetDedup (l : List String) : List String := jsSetDedupAux [] l

/-- Lexicographic "less or equal" on character lists. -/
def lexLeL : List Char → List Char → Bool
  | [], _ => true
  | _ :: _, [] => false
  | a :: as, b :: bs => if a < b then true else if b < a then false else lexLeL as bs

/-- The sort comparator `(a, b) => a.localeCompare(b, undefined, { sensitivity: "base" })`
interpreted as an ordering relation, modelled for this data as
case-insensitive (lower-cased) lexicographic comparison. -/
def lcBaseLe (a b : String) : Prop :=
  lexLeL (a.data.map Char.toLower) (b.data.map Char.toLower) = true

instance : DecidableRel lcBaseLe := fun a b => by unfold lcBaseLe; infer_instance

/-- `uniqSorted` (`main_mapbox.js`):
`Array.from(new Set(arr.filter(Boolean))).sort(localeCompare-base)`,
the sort modelled by a stable sort with respect to the comparator. -/
def uniqSorted (arr : List String) : List String :=
  List.insertionSort lcBaseLe (jsSetDedup (arr.filter (fun s => s ≠ "")))

/-- `(gj.features || []).filter(Boolean)`: the fetched `features` array with
null/falsy entries dropped (a JSON `null` entry is `none`). -/
def storeFeatures (fetched : List (Option Feature)) : List Feature :=
  fetched.reduceOption

/-- JS `String(v)` on a possibly-undefined string value: `String(undefined)`
is the literal string `"undefined"`. -/
def jsStringOfOpt : Option String → String
  | none => "undefined"
  | some s => s

/-- `allFeatures.map(f => f.properties || {})` followed by
`.map(p => p.province).map(String)` in `loadGeoJSON` (`main_mapbox.js`). -/
def provinceStrings (feats : List Feature) : List String :=
  (feats.map (fun f => (f.properties.getD {}).province)).map jsStringOfOpt

/-- Same for `p.region`. -/
def regionStrings (feats : List Feature) : List String :=
  (feats.map (fun f => (f.properties.getD {}).region)).map jsStringOfOpt

/-- The province option list derived in `loadGeoJSON` (`main_mapbox.js`):
`uniqSorted(props.map(p => p.province).map(String))`. -/
def derivedProvinces (feats : List Feature) : List String :=
  uniqSorted (provinceStrings feats)

/-- The region option list derived in `loadGeoJSON` (`main_mapbox.js`). -/
def derivedRegions (feats : List Feature) : List String :=
  uniqSorted (regionStrings feats)

example : uniqSorted ["b", "", "A", "b", "a"] = ["A", "a", "b"] := by decide
example : jsSetDedup ["b", "A", "b", "a"] = ["b", "A", "a"] := by decide

/-- Outcome of the single `fetch(DATA_URL, { cache: "no-store" })` a load
performs: network rejection, non-success HTTP status, a body that is not
JSON, or a parsed document (its `features` array, entries possibly null). -/
inductive FetchResult where
  | netError : FetchResult
  | httpError : FetchResult
  | parseError : FetchResult
  | ok (features : List (Option Feature)) : FetchResult

/-- Whether the fetch outcome is one of the failure cases. -/
def FetchResult.isFailure : FetchResult → Bool
  | .ok _ => false
  | _ => true

/-- Observable state of the Leaflet page (`main.js`): the feature store,
the `#count` element's text (`none` when the element is missing from the
page), whether the `#grid` element exists, and how many fetches have been
issued. -/
structure MainAppState where
  allFeatures : List Feature := []
  countText : Option String := some ""
  hasGrid : Bool := true
  fetchAttempts : Nat := 0

/-- The failure message `main.js` writes: `` `Failed to load ${DATA_URL}` ``. -/
def failMsgMain : String := "Failed to load data/tours.geojson"

/-- The `#count` update performed at the end of `renderCards` (`main.js`);
`renderCards` returns early when `#grid` or `#count` is missing. -/
def renderCardsCount (features : List Feature) (s : MainAppState) : MainAppState :=
  if s.hasGrid ∧ s.countText.isSome then
    { s with countText := some (toString features.length ++ " tours shown") }
  else s

/-- `applyFiltersAndRender` (`main.js`): recompute the filtered subset from
the store and re-render (of the render effects, only the count text is part
of the observable state here; the map/card rebuild consumes the same list). -/
def applyFiltersAndRenderMain (st : FilterStateMain) (s : MainAppState) : MainAppState :=
  renderCardsCount (s.allFeatures.filter (fun f => passesFiltersMain st (f.properties.getD {}))) s

/-- `loadGeoJSON` (`main.js`) as a state transformer over the outcome of its
one fetch.  On `!res.ok` or a thrown error it writes the failure message to
`#count` (when present) and returns; on success it stores the truthy
features and re-renders.  (The initial map fit and `console.error` logging
are not part of the observable state.) -/
def loadGeoJSONMain (st : FilterStateMain) (r : FetchResult) (s : MainAppState) : MainAppState :=
  let s := { s with fetchAttempts := s.fetchAttempts + 1 }
  match r with
  | .netError => { s with countText := s.countText.map (fun _ => failMsgMain) }
  | .httpError => { s with countText := s.countText.map (fun _ => failMsgMain) }
  | .parseError => { s with countText := s.countText.map (fun _ => failMsgMain) }
  | .ok fetched =>
      applyFiltersAndRenderMain st { s with allFeatures := storeFeatures fetched }

/-- Observable state of the Mapbox page (`main_mapbox.js`): the feature
store, the map source's current data, the two selector option lists, the
text of any user-visible status element (this variant never writes one),
and how many fetches have been issued. -/
structure MapboxAppState where
  allFeatures : List Feature := []
  sourceData : List Feature := []
  provinceOptions : List String := []
  regionOptions : List String := []
  statusText : Option String := none
  fetchAttempts : Nat := 0

/-- `applyFiltersAndRender` (`main_mapbox.js`): recompute the filtered
subset and push it into the map source via `setSourceData`. -/
def applyFiltersAndRenderMapbox (st : FilterStateMapbox) (s : MapboxAppState) : MapboxAppState :=
  { s with
    sourceData := s.allFeatures.filter (fun f => passesFiltersMapbox st (f.properties.getD {})) }

/-- `loadGeoJSON` (`main_mapbox.js`): on `!res.ok` it returns with no DOM
update at all; a thrown error is only logged (`console.error`).  On success
it stores the truthy features, derives the selector option lists, and
re-renders.  (The initial `fitBounds` is modelled separately.) -/
def loadGeoJSONMapbox (st : FilterStateMapbox) (r : FetchResult) (s : MapboxAppState) :
    MapboxAppState :=
  let s := { s with fetchAttempts := s.fetchAttempts + 1 }
  match r with
  | .netError => s
  | .httpError => s
  | .parseError => s
  | .ok fetched =>
      let all := storeFeatures fetched
      applyFiltersAndRenderMapbox st
        { s with
          allFeatures := all
          provinceOptions := derivedProvinces all
          regionOptions := derivedRegions all }

/-- A `mapboxgl.LngLatBounds` value: `none` is a freshly constructed, empty
bounds (`isEmpty()` true); `some ((swLng, swLat), (neLng, neLat))` is a
bounds extended at least once. -/
abbrev LngLatBounds := Option ((Int × Int) × (Int × Int))

/-- `bounds.extend([lng, lat])`: grow the box to contain the point. -/
def extendPoint (b : LngLatBounds) (p : Int × Int) : LngLatBounds :=
  match b with
  | none => some (p, p)
  | some (sw, ne) =>
      some ((min sw.1 p.1, min sw.2 p.2), (max ne.1 p.1, max ne.2 p.2))

mutual
/-- `extendBoundsWithCoords(bounds, coords)` (`main_mapbox.js`): a falsy
value contributes nothing; an array whose first two entries are numbers is
a position `[lng, lat]`; any other array is traversed recursively; a bare
number contributes nothing (it has no index 0/1 and is not an array). -/
def extendBoundsWithCoords (b : LngLatBounds) : JVal → LngLatBounds
  | .null => b
  | .num _ => b
  | .arr l =>
      match l with
      | .num x :: .num y :: _ => extendPoint b (x, y)
      | _ => extendBoundsList b l

/-- The `for (const c of coords)` loop inside `extendBoundsWithCoords`. -/
def extendBoundsList (b : LngLatBounds) : List JVal → LngLatBounds
  | [] => b
  | c :: cs => extendBoundsList (extendBoundsWithCoords b c) cs
end

/-- The loop body of `boundsForFeatures`: the guard
`if (!g || !g.coordinates) continue;` keeps `b`; otherwise `b` is created
when still null and extended with the feature's coordinates. -/
def boundsStep (b : Option LngLatBounds) (f : Feature) : Option LngLatBounds :=
  match f.geometry with
  | none => b
  | some g =>
      if jvalTruthy g.coordinates = false then b
      else some (extendBoundsWithCoords (b.getD none) g.coordinates)

/-- The truth value of the skip guard in `boundsForFeatures`. -/
def featureSkipped (f : Feature) : Bool :=
  match f.geometry with
  | none => true
  | some g => !jvalTruthy g.coordinates

/-- `boundsForFeatures` (`main_mapbox.js`): outer `none` is the initial
`b = null`, kept when no feature passes the geometry/coordinates guard. -/
def boundsForFeatures (feats : List Feature) : Option LngLatBounds :=
  feats.foldl boundsStep none

/-- A `map.fitBounds(b, { padding, duration })` call description. -/
structure FitCall where
  bounds : (Int × Int) × (Int × Int)
  padding : Nat
  duration : Nat
deriving DecidableEq, Repr

/-- The `#fit` click handler of `wireFilterControls` (`main_mapbox.js`):
filter the store, compute bounds, and call `fitBounds` only when the bounds
object exists and is non-empty (`if (b && !b.isEmpty?.())`). -/
def fitClickMapbox (st : FilterStateMapbox) (allFeatures : List Feature) : Option FitCall :=
  let filtered := allFeatures.filter (fun f => passesFiltersMapbox st (f.properties.getD {}))
  match boundsForFeatures filtered with
  | none => none
  | some none => none
  | some (some box) => some { bounds := box, padding := 60, duration := 400 }

/-- JS `s.replaceAll(pat, repl)` for a one-character pattern: occurrences of
a single character never overlap, so every occurrence of `pat` is replaced
independently. -/
def replaceAllChar (s : String) (pat : Char) (repl : String) : String :=
  ⟨s.data.flatMap (fun c => if c = pat then repl.data else [c])⟩

/-- `escapeHtml` (`main_mapbox.js`): the five chained `replaceAll` calls,
`&` first. -/
def escapeHtml (s : String) : String :=
  replaceAllChar
    (replaceAllChar
      (replaceAllChar
        (replaceAllChar
          (replaceAllChar s '&' "&amp;")
          '<' "&lt;")
        '>' "&gt;")
      '"' "&quot;")
    '\'' "&#039;"

/-- `escapeAttr` (`main_mapbox.js`): `String(s).replaceAll('"', "%22")`. -/
def escapeAttr (s : String) : String :=
  replaceAllChar s '"' "%22"

/-- Per-character summary of what the chain in `escapeHtml` does. -/
def escHtmlChar (c : Char) : List Char :=
  if c = '&' then "&amp;".data
  else if c = '<' then "&lt;".data
  else if c = '>' then "&gt;".data
  else if c = '"' then "&quot;".data
  else if c = '\'' then "&#039;".data
  else [c]

/-- JS `Array.prototype.join(sep)`. -/
def joinSep (sep : String) : List String → String
  | [] => ""
  | [a] => a
  | a :: b :: rest => a ++ sep ++ joinSep sep (b :: rest)

/-- `popupHtml` (`main_mapbox.js`): the six candidate lines, empty ones
dropped (`.filter(Boolean)`), joined with `"<br>"`.  `title` uses the
nullish coalescing `p.title ?? p.slug ?? "Tour"`; `dir` uses the truthy
`p.direction || p.direcrtion || ""`. -/
def popupHtml (p : TourProps) : String :=
  let dir := jsOrS (p.direction.getD "") (jsOrS (p.direcrtion.getD "") "")
  let title := ((p.title).or (p.slug)).getD "Tour"
  let lines : List String :=
    [ "<b>" ++ escapeHtml title ++ "</b>",
      if p.region.getD "" ≠ "" then escapeHtml (p.region.getD "") else "",
      if dir ≠ "" then escapeHtml dir else "",
      match p.vert_m with
      | some n => "Vert: " ++ escapeHtml (toString n) ++ " m"
      | none => "",
      match p.distance_km with
      | some n => "Dist: " ++ escapeHtml (toString n) ++ " km"
      | none => "",
      if p.gpx.getD "" ≠ "" then
        "<a href=\"" ++ escapeAttr (p.gpx.getD "") ++
          "\" target=\"_blank\" rel=\"noopener\">Download GPX</a>"
      else "" ]
  joinSep "<br>" (lines.filter (fun l => l ≠ ""))

example : escapeHtml "<i>\"a&b\"</i>" = "&lt;i&gt;&quot;a&amp;b&quot;&lt;/i&gt;" := by decide
example : escapeAttr "x\"y" = "x%22y" := by decide
example : popupHtml { title := some "T<x>", gpx := some "a\"b.gpx" } =
    "<b>T&lt;x&gt;</b><br><a href=\"a%22b.gpx\" target=\"_blank\" rel=\"noopener\">Download GPX</a>" := by
  decide

theorem passesFiltersMain_iff (st : FilterStateMain) (p : TourProps) :
    passesFiltersMain st p = true ↔
      ((normS st.q = "" ∨ strIncludes (hayMain p) (normS st.q) = true) ∧
       (normS st.difficulty = "" ∨ normOpt p.difficulty = normS st.difficulty) ∧
       (normS st.activity = "" ∨ normOpt p.activity = normS st.activity)) := by
  unfold passesFiltersMain
  dsimp only
  split_ifs with h1 h2 h3 <;> simp_all [not_and_or] <;> tauto

theorem passesFiltersMapbox_iff (st : FilterStateMapbox) (p : TourProps) :
    passesFiltersMapbox st p = true ↔
      ((normS st.q = "" ∨ strIncludes (hayMapbox p) (normS st.q) = true) ∧
       (normS st.province = "" ∨ normOpt p.province = normS st.province) ∧
       (normS st.region = "" ∨ normOpt p.region = normS st.region)) := by
  unfold passesFiltersMapbox
  dsimp only
  split_ifs with h1 h2 h3 <;> simp_all [not_and_or] <;> tauto

theorem strIncludes_of_infix_hayMain (p : TourProps) (q : String)
    (h : q.data <:+: (normOpt p.title).data) : strIncludes (hayMain p) q = true := by
  have h2 : (normOpt p.title).data <:+: (hayMain p).data :=
    ⟨[], (" " ++ normOpt p.region ++ " " ++ normOpt p.subtitle ++ " " ++
      normOpt p.activity ++ " " ++ normOpt p.difficulty).data, by simp [hayMain]⟩
  exact decide_eq_true (h.trans h2)

theorem strIncludes_of_infix_hayMapbox (p : TourProps) (q : String)
    (h : q.data <:+: (normOpt p.title).data) : strIncludes (hayMapbox p) q = true := by
  have h2 : (normOpt p.title).data <:+: (hayMapbox p).data :=
    ⟨[], (" " ++ normOpt p.region ++ " " ++ normOpt p.province ++ " " ++
      normOpt p.subtitle ++ " " ++ normOpt p.country).data, by simp [hayMapbox]⟩
  exact decide_eq_true (h.trans h2)

/-- C1: with no categorical selector set, the text filter passes a feature
exactly when the query is empty after normalisation or the normalised
(trimmed, lower-cased) query occurs as a substring of the concatenated
lower-cased haystack; in particular a query that is a case-insensitive
substring of the feature's title passes.  Stated for both script
variants' `passesFilters`. -/
theorem c1_text_query_filter (p : TourProps) (qv : String) :
    (passesFiltersMain ⟨qv, "", ""⟩ p = true ↔
       (normS qv = "" ∨ strIncludes (hayMain p) (normS qv) = true)) ∧
    (passesFiltersMapbox ⟨qv, "", ""⟩ p = true ↔
       (normS qv = "" ∨ strIncludes (hayMapbox p) (normS qv) = true)) ∧
    ((normS qv).data <:+: (normOpt p.title).data → passesFiltersMain ⟨qv, "", ""⟩ p = true) ∧
    ((normS qv).data <:+: (normOpt p.title).data → passesFiltersMapbox ⟨qv, "", ""⟩ p = true) := by
  refine ⟨?_, ?_, ?_, ?_⟩
  · rw [passesFiltersMain_iff]
    simp [normS, trimL]
  · rw [passesFiltersMapbox_iff]
    simp [normS, trimL]
  · intro h
    exact (passesFiltersMain_iff _ _).mpr
      ⟨Or.inr (strIncludes_of_infix_hayMain p _ h), Or.inl rfl, Or.inl rfl⟩
  · intro h
    exact (passesFiltersMapbox_iff _ _).mpr
      ⟨Or.inr (strIncludes_of_infix_hayMapbox p _ h), Or.inl rfl, Or.inl rfl⟩

/-- Witness for `c1_text_query_filter`: the mixed-case query `"GIN"` is
(after normalisation) a substring of the title `"Ginpeak Tour"` and passes. -/
theorem c1_text_query_filter_witness :
    (normS "GIN").data <:+: (normOpt (some "Ginpeak Tour")).data ∧
    passesFiltersMain ⟨"GIN", "", ""⟩ { title := some "Ginpeak Tour" } = true :=
  ⟨by decide, (c1_text_query_filter { title := some "Ginpeak Tour" } "GIN").2.2.1 (by decide)⟩

/-- C2: each categorical selector, when set, demands an exact
case-insensitive match with the corresponding property, an unset selector
imposes no constraint, and the predicate is the conjunction of all active
constraints; concretely, selector difficulty `"Advanced"` matches property
`"advanced"` and excludes `"intermediate"`. -/
theorem c2_selector_filter :
    (∀ (st : FilterStateMain) (p : TourProps),
       passesFiltersMain st p = true ↔
         ((normS st.q = "" ∨ strIncludes (hayMain p) (normS st.q) = true) ∧
          (normS st.difficulty = "" ∨ normOpt p.difficulty = normS st.difficulty) ∧
          (normS st.activity = "" ∨ normOpt p.activity = normS st.activity))) ∧
    (∀ (st : FilterStateMapbox) (p : TourProps),
       passesFiltersMapbox st p = true ↔
         ((normS st.q = "" ∨ strIncludes (hayMapbox p) (normS st.q) = true) ∧
          (normS st.province = "" ∨ normOpt p.province = normS st.province) ∧
          (normS st.region = "" ∨ normOpt p.region = normS st.region))) ∧
    passesFiltersMain ⟨"", "Advanced", ""⟩ { difficulty := some "advanced" } = true ∧
    passesFiltersMain ⟨"", "Advanced", ""⟩ { difficulty := some "intermediate" } = false :=
  ⟨passesFiltersMain_iff, passesFiltersMapbox_iff, by decide, by decide⟩

/-- C7: the fully empty filter state passes every feature, so filtering
with it is the identity on any feature list. -/
theorem c7_empty_filter_identity :
    (∀ p : TourProps, passesFiltersMain ⟨"", "", ""⟩ p = true) ∧
    (∀ p : TourProps, passesFiltersMapbox ⟨"", "", ""⟩ p = true) ∧
    (∀ l : List Feature,
       l.filter (fun f => passesFiltersMain ⟨"", "", ""⟩ (f.properties.getD {})) = l) ∧
    (∀ l : List Feature,
       l.filter (fun f => passesFiltersMapbox ⟨"", "", ""⟩ (f.properties.getD {})) = l) := by
  have hm : ∀ p : TourProps, passesFiltersMain ⟨"", "", ""⟩ p = true := fun p =>
    (passesFiltersMain_iff _ _).mpr ⟨Or.inl rfl, Or.inl rfl, Or.inl rfl⟩
  have hx : ∀ p : TourProps, passesFiltersMapbox ⟨"", "", ""⟩ p = true := fun p =>
    (passesFiltersMapbox_iff _ _).mpr ⟨Or.inl rfl, Or.inl rfl, Or.inl rfl⟩
  exact ⟨hm, hx,
    fun l => List.filter_eq_self.mpr (fun f _ => hm _),
    fun l => List.filter_eq_self.mpr (fun f _ => hx _)⟩

theorem allFeatures_applyMain (st : FilterStateMain) (s : MainAppState) :
    (applyFiltersAndRenderMain st s).allFeatures = s.allFeatures := by
  unfold applyFiltersAndRenderMain renderCardsCount
  split <;> rfl

theorem allFeatures_applyMapbox (st : FilterStateMapbox) (s : MapboxAppState) :
    (applyFiltersAndRenderMapbox st s).allFeatures = s.allFeatures := rfl

/-- C6: filtering is a pure projection of the store: filtering an
already-filtered list again with the same state changes nothing, any number
of render passes leaves the feature store untouched (in both variants), and
a second render pass with the same state is a no-op on the whole observable
state of the Mapbox variant. -/
theorem c6_filter_pure_projection :
    (∀ (st : FilterStateMain) (l : List Feature),
       (l.filter (fun f => passesFiltersMain st (f.properties.getD {}))).filter
           (fun f => passesFiltersMain st (f.properties.getD {})) =
         l.filter (fun f => passesFiltersMain st (f.properties.getD {}))) ∧
    (∀ (st : FilterStateMapbox) (l : List Feature),
       (l.filter (fun f => passesFiltersMapbox st (f.properties.getD {}))).filter
           (fun f => passesFiltersMapbox st (f.properties.getD {})) =
         l.filter (fun f => passesFiltersMapbox st (f.properties.getD {}))) ∧
    (∀ (st : FilterStateMain) (s : MainAppState) (n : Nat),
       ((applyFiltersAndRenderMain st)^[n] s).allFeatures = s.allFeatures) ∧
    (∀ (st : FilterStateMapbox) (s : MapboxAppState) (n : Nat),
       ((applyFiltersAndRenderMapbox st)^[n] s).allFeatures = s.allFeatures) ∧
    (∀ (st : FilterStateMapbox) (s : MapboxAppState),
       applyFiltersAndRenderMapbox st (applyFiltersAndRenderMapbox st s) =
         applyFiltersAndRenderMapbox st s) := by
  refine ⟨?_, ?_, ?_, ?_, ?_⟩
  · intro st l
    simp [List.filter_filter]
  · intro st l
    simp [List.filter_filter]
  · intro st s n
    induction n generalizing s with
    | zero => rfl
    | succ n ih =>
        rw [Function.iterate_succ_apply]
        rw [ih, allFeatures_applyMain]
  · intro st s n
    induction n generalizing s with
    | zero => rfl
    | succ n ih =>
        rw [Function.iterate_succ_apply]
        rw [ih, allFeatures_applyMapbox]
  · intro st s
    rfl

/-- C8: `openTour` resolves `page` when truthy, else the slug-derived
`./tours/{slug}.html` when `slug` is truthy, else performs no navigation;
every opened window uses target `_blank` with the
`"noopener,noreferrer"` feature string (no opener reference granted). -/
theorem c8_openTour_resolution (p : TourProps) :
    (p.page.getD "" ≠ "" →
       openTour p = some ⟨p.page.getD "", "_blank", "noopener,noreferrer"⟩) ∧
    (p.page.getD "" = "" → p.slug.getD "" ≠ "" →
       openTour p =
         some ⟨"./tours/" ++ p.slug.getD "" ++ ".html", "_blank", "noopener,noreferrer"⟩) ∧
    (p.page.getD "" = "" → p.slug.getD "" = "" → openTour p = none) ∧
    (∀ c ∈ openTour p, c.target = "_blank" ∧ c.features = "noopener,noreferrer") := by
  unfold openTour
  by_cases hp : p.page.getD "" = "" <;> by_cases hs : p.slug.getD "" = "" <;>
    simp [hp, hs]

/-- Witness for `c8_openTour_resolution`: a feature carrying only
`slug: "ginpeak-up"` opens `./tours/ginpeak-up.html` in a new context. -/
theorem c8_openTour_resolution_witness :
    ({ slug := some "ginpeak-up" } : TourProps).page.getD "" = "" ∧
    ({ slug := some "ginpeak-up" } : TourProps).slug.getD "" ≠ "" ∧
    openTour { slug := some "ginpeak-up" } =
      some ⟨"./tours/ginpeak-up.html", "_blank", "noopener,noreferrer"⟩ :=
  ⟨rfl, by decide, (c8_openTour_resolution { slug := some "ginpeak-up" }).2.1 rfl (by decide)⟩

/-- Counterexample to C5 as stated: `trackColorFromProps` falls back to the
misspelled field whenever `direction` is falsy, not only when it is absent.
With `direction: ""` (present but empty) and `direcrtion: "down"` the code
classifies to the descent colour, while the claim's absence-only fallback
reads the empty `direction` and yields the ascent colour. -/
theorem c5_direction_fallback_cex :
    trackColorFromProps { direction := some "", direcrtion := some "down" } = "#b64a4a" ∧
    claimTrackColor { direction := some "", direcrtion := some "down" } = "#1f6feb" ∧
    trackColorFromProps { direction := some "", direcrtion := some "down" } ≠
      claimTrackColor { direction := some "", direcrtion := some "down" } := by
  refine ⟨by decide, by decide, by decide⟩

/-- C5 (amended): the classification normalises (trims, lower-cases) the
value of `direction` or — when `direction` is absent or empty (falsy) — of
the misspelled `direcrtion`, maps up/ascent, down/descent, traverse/cross
to the three colours, everything else to the ascent colour; a falsy
`direction` makes the classification agree with the one where `direction`
is absent, and the mixed-case and misspelled-field examples classify to the
ascent colour in both `trackColorFromProps` and the layer paint
expression. -/
theorem c5_direction_classification (p : TourProps) (d : String)
    (hd : d = normS (jsOrS (p.direction.getD "") (jsOrS (p.direcrtion.getD "") ""))) :
    ((d = "up" ∨ d = "ascent") → trackColorFromProps p = "#1f6feb") ∧
    ((d = "down" ∨ d = "descent") → trackColorFromProps p = "#b64a4a") ∧
    ((d = "traverse" ∨ d = "cross") → trackColorFromProps p = "#b000b5") ∧
    (d ∉ (["up", "ascent", "down", "descent", "traverse", "cross"] : List String) →
       trackColorFromProps p = "#1f6feb") ∧
    (p.direction.getD "" = "" →
       trackColorFromProps p = trackColorFromProps { p with direction := none }) ∧
    trackColorFromProps { direction := some "ASCENT" } = "#1f6feb" ∧
    trackColorFromProps { direcrtion := some "up" } = "#1f6feb" ∧
    layerDirectionColor { direction := some "ASCENT" } = "#1f6feb" ∧
    layerDirectionColor { direcrtion := some "up" } = "#1f6feb" := by
  subst hd
  refine ⟨?_, ?_, ?_, ?_, ?_, by decide, by decide, by decide, by decide⟩
  · intro h
    unfold trackColorFromProps
    dsimp only
    rcases h with h | h <;> rw [h] <;> decide
  · intro h
    unfold trackColorFromProps
    dsimp only
    rcases h with h | h <;> rw [h] <;> decide
  · intro h
    unfold trackColorFromProps
    dsimp only
    rcases h with h | h <;> rw [h] <;> decide
  · intro h
    simp only [List.mem_cons, List.mem_singleton, not_or] at h
    obtain ⟨h1, h2, h3, h4, h5, h6⟩ := h
    unfold trackColorFromProps
    dsimp only
    simp [h1, h2, h3, h4, h5, h6]
  · intro h
    unfold trackColorFromProps
    dsimp only
    rw [h]
    simp [jsOrS]

/-- Witness for `c5_direction_classification`: the mixed-case value
`"ASCENT"` normalises to `"ascent"` and classifies to the ascent colour. -/
theorem c5_direction_classification_witness :
    ("ascent" : String) =
      normS (jsOrS (({ direction := some "ASCENT" } : TourProps).direction.getD "")
        (jsOrS (({ direction := some "ASCENT" } : TourProps).direcrtion.getD "") "")) ∧
    trackColorFromProps { direction := some "ASCENT" } = "#1f6feb" :=
  ⟨by decide,
   (c5_direction_classification { direction := some "ASCENT" } "ascent" (by decide)).1
     (Or.inr rfl)⟩

/-- Counterexample to C4 as stated: on a non-success HTTP response the
Mapbox variant's `loadGeoJSON` performs no user-visible status update at
all — the whole observable state except the attempt counter is unchanged. -/
theorem c4_mapbox_silent_failure_cex :
    (loadGeoJSONMapbox ⟨"", "", ""⟩ .httpError {}).statusText = none ∧
    loadGeoJSONMapbox ⟨"", "", ""⟩ .httpError {} =
      { ({} : MapboxAppState) with fetchAttempts := 1 } :=
  ⟨rfl, rfl⟩

/-- C4 (amended): on any fetch failure both variants return without
throwing, issue exactly one fetch (no retry), and leave the feature store
unchanged; the Leaflet variant rewrites the `#count` text (when the element
exists) with the failure message, while the Mapbox variant performs no
user-visible update whatsoever. -/
theorem c4_load_failure_behaviour (stM : FilterStateMain) (stX : FilterStateMapbox)
    (r : FetchResult) (s : MainAppState) (t : MapboxAppState)
    (h : r.isFailure = true) :
    (loadGeoJSONMain stM r s).allFeatures = s.allFeatures ∧
    (loadGeoJSONMain stM r s).fetchAttempts = s.fetchAttempts + 1 ∧
    (loadGeoJSONMain stM r s).countText = s.countText.map (fun _ => failMsgMain) ∧
    (loadGeoJSONMapbox stX r t).allFeatures = t.allFeatures ∧
    (loadGeoJSONMapbox stX r t).fetchAttempts = t.fetchAttempts + 1 ∧
    (loadGeoJSONMapbox stX r t).statusText = t.statusText ∧
    loadGeoJSONMapbox stX r t = { t with fetchAttempts := t.fetchAttempts + 1 } := by
  cases r with
  | ok fs => simp [FetchResult.isFailure] at h
  | netError => exact ⟨rfl, rfl, rfl, rfl, rfl, rfl, rfl⟩
  | httpError => exact ⟨rfl, rfl, rfl, rfl, rfl, rfl, rfl⟩
  | parseError => exact ⟨rfl, rfl, rfl, rfl, rfl, rfl, rfl⟩

/-- Witness for `c4_load_failure_behaviour`: an HTTP failure on the default
states — the Leaflet count element reads the failure message, the store
stays empty. -/
theorem c4_load_failure_behaviour_witness :
    FetchResult.httpError.isFailure = true ∧
    (loadGeoJSONMain ⟨"", "", ""⟩ .httpError {}).countText = some failMsgMain ∧
    (loadGeoJSONMain ⟨"", "", ""⟩ .httpError {}).allFeatures = [] := by
  have h := c4_load_failure_behaviour ⟨"", "", ""⟩ ⟨"", "", ""⟩ .httpError {} {} rfl
  exact ⟨rfl, by rw [h.2.2.1]; rfl, by rw [h.1]⟩

theorem lexLeL_total : ∀ a b, lexLeL a b = true ∨ lexLeL b a = true
  | [], _ => Or.inl rfl
  | _ :: _, [] => Or.inr rfl
  | a :: as, b :: bs => by
    rcases lt_trichotomy a b with h | h | h
    · left; simp [lexLeL, h]
    · subst h
      rcases lexLeL_total as bs with h | h
      · left; simp [lexLeL, lt_irrefl, h]
      · right; simp [lexLeL, lt_irrefl, h]
    · right; simp [lexLeL, h]

theorem lexLeL_trans : ∀ a b c, lexLeL a b = true → lexLeL b c = true → lexLeL a c = true
  | [], _, _, _, _ => rfl
  | _ :: _, [], _, h, _ => by simp [lexLeL] at h
  | _ :: _, _ :: _, [], _, h => by simp [lexLeL] at h
  | a :: as, b :: bs, c :: cs, h1, h2 => by
    simp only [lexLeL] at h1 h2 ⊢
    rcases lt_trichotomy a b with hab | hab | hab
    · rcases lt_trichotomy b c with hbc | hbc | hbc
      · simp [lt_trans hab hbc]
      · subst hbc; simp [hab]
      · rw [if_neg (lt_asymm hbc), if_pos hbc] at h2; exact absurd h2 (by simp)
    · subst hab
      rcases lt_trichotomy a c with hac | hac | hac
      · simp [hac]
      · subst hac
        rw [if_neg (lt_irrefl a)] at h1 h2 ⊢
        rw [if_neg (lt_irrefl a)] at h1 h2 ⊢
        exact lexLeL_trans as bs cs h1 h2
      · rw [if_neg (lt_asymm hac), if_pos hac] at h2; exact absurd h2 (by simp)
    · rw [if_neg (lt_asymm hab), if_pos hab] at h1; exact absurd h1 (by simp)

instance : IsTotal String lcBaseLe :=
  ⟨fun a b => lexLeL_total (a.data.map Char.toLower) (b.data.map Char.toLower)⟩

instance : IsTrans String lcBaseLe :=
  ⟨fun _ _ _ h1 h2 => lexLeL_trans _ _ _ h1 h2⟩

theorem mem_jsSetDedupAux (x : String) :
    ∀ (l seen : List String), x ∈ jsSetDedupAux seen l ↔ (x ∈ l ∧ x ∉ seen)
  | [], seen => by simp [jsSetDedupAux]
  | a :: rest, seen => by
    unfold jsSetDedupAux
    by_cases ha : a ∈ seen
    · rw [if_pos ha, mem_jsSetDedupAux x rest seen]
      constructor
      · rintro ⟨h1, h2⟩; exact ⟨List.mem_cons_of_mem a h1, h2⟩
      · rintro ⟨h1, h2⟩
        rcases List.mem_cons.mp h1 with rfl | h1
        · exact absurd ha h2
        · exact ⟨h1, h2⟩
    · rw [if_neg ha]
      rw [List.mem_cons, mem_jsSetDedupAux x rest (a :: seen)]
      constructor
      · rintro (rfl | ⟨h1, h2⟩)
        · exact ⟨List.mem_cons_self x rest, ha⟩
        · exact ⟨List.mem_cons_of_mem a h1, fun hx => h2 (List.mem_cons_of_mem a hx)⟩
      · rintro ⟨h1, h2⟩
        rcases List.mem_cons.mp h1 with rfl | h1
        · exact Or.inl rfl
        · by_cases hxa : x = a
          · exact Or.inl hxa
          · exact Or.inr ⟨h1, fun hx => by
              rcases List.mem_cons.mp hx with h | h
              · exact hxa h
              · exact h2 h⟩

theorem nodup_jsSetDedupAux : ∀ (l seen : List String), (jsSetDedupAux seen l).Nodup
  | [], seen => List.nodup_nil
  | a :: rest, seen => by
    unfold jsSetDedupAux
    by_cases ha : a ∈ seen
    · rw [if_pos ha]; exact nodup_jsSetDedupAux rest seen
    · rw [if_neg ha]
      refine List.nodup_cons.mpr ⟨?_, nodup_jsSetDedupAux rest (a :: seen)⟩
      intro hmem
      exact ((mem_jsSetDedupAux a rest (a :: seen)).mp hmem).2 (List.mem_cons_self a seen)

theorem mem_jsSetDedup (x : String) (l : List String) : x ∈ jsSetDedup l ↔ x ∈ l := by
  unfold jsSetDedup
  rw [mem_jsSetDedupAux]
  simp

theorem mem_uniqSorted (v : String) (l : List String) :
    v ∈ uniqSorted l ↔ (v ≠ "" ∧ v ∈ l) := by
  unfold uniqSorted
  rw [List.mem_insertionSort, mem_jsSetDedup, List.mem_filter]
  simp [and_comm, decide_eq_true_iff]

theorem nodup_uniqSorted (l : List String) : (uniqSorted l).Nodup := by
  unfold uniqSorted
  exact ((List.perm_insertionSort lcBaseLe _).nodup_iff).mpr
    (nodup_jsSetDedupAux _ [])

/-- Counterexample to C3 as stated: a feature whose `province` property is
absent contributes the literal string `"undefined"` to the selector list —
`.map(String)` stringifies `undefined` before `uniqSorted`'s falsy filter —
rather than contributing no entry. -/
theorem c3_undefined_province_cex :
    derivedProvinces [{ properties := some {} }] = ["undefined"] ∧
    derivedProvinces [{ properties := some {} }] ≠ [] := by
  exact ⟨by decide, by decide⟩

/-- C3 (amended): the store keeps exactly the non-null fetched features;
every `uniqSorted` output is case-insensitively sorted, duplicate-free and
free of empty strings, and its members are exactly the non-empty input
strings; for the derived selector lists the input strings are the
stringified property values, so a feature with an absent province
contributes the entry `"undefined"` (not nothing). -/
theorem c3_store_and_selector_lists (fetched : List (Option Feature)) (g : Feature)
    (l : List String) (feats : List Feature) :
    (g ∈ storeFeatures fetched ↔ some g ∈ fetched) ∧
    List.Sorted lcBaseLe (uniqSorted l) ∧
    (uniqSorted l).Nodup ∧
    "" ∉ uniqSorted l ∧
    (∀ v, v ∈ uniqSorted l ↔ (v ≠ "" ∧ v ∈ l)) ∧
    (∀ v, v ∈ derivedProvinces feats ↔ (v ≠ "" ∧ v ∈ provinceStrings feats)) ∧
    (∀ v, v ∈ derivedRegions feats ↔ (v ≠ "" ∧ v ∈ regionStrings feats)) ∧
    (g ∈ feats → (g.properties.getD {}).province = none →
       "undefined" ∈ derivedProvinces feats) := by
  refine ⟨List.reduceOption_mem_iff, List.sorted_insertionSort lcBaseLe _,
    nodup_uniqSorted l, ?_, fun v => mem_uniqSorted v l,
    fun v => mem_uniqSorted v (provinceStrings feats),
    fun v => mem_uniqSorted v (regionStrings feats), ?_⟩
  · intro h
    exact ((mem_uniqSorted "" l).mp h).1 rfl
  · intro hg hnone
    refine (mem_uniqSorted _ _).mpr ⟨by decide, ?_⟩
    unfold provinceStrings
    refine List.mem_map.mpr ⟨(g.properties.getD {}).province, List.mem_map.mpr ⟨g, hg, rfl⟩, ?_⟩
    rw [hnone]
    rfl

/-- Witness for `c3_store_and_selector_lists`: a stored feature with
`properties` present but no `province` yields the `"undefined"` entry. -/
theorem c3_store_and_selector_lists_witness :
    (({ properties := some {} } : Feature) ∈ [({ properties := some {} } : Feature)]) ∧
    ((({ properties := some {} } : Feature)).properties.getD {}).province = none ∧
    "undefined" ∈ derivedProvinces [{ properties := some {} }] := by
  refine ⟨List.mem_singleton.mpr rfl, rfl, ?_⟩
  exact (c3_store_and_selector_lists [] { properties := some {} } []
    [{ properties := some {} }]).2.2.2.2.2.2.2 (List.mem_singleton.mpr rfl) rfl

theorem boundsStep_skipped (b : Option LngLatBounds) (f : Feature)
    (h : featureSkipped f = true) : boundsStep b f = b := by
  unfold featureSkipped at h
  unfold boundsStep
  cases hg : f.geometry with
  | none => rfl
  | some g =>
      rw [hg] at h
      simp only [Bool.not_eq_true'] at h
      simp [h]

theorem boundsForFeatures_all_skipped :
    ∀ (feats : List Feature), (∀ f ∈ feats, featureSkipped f = true) →
      feats.foldl boundsStep none = none
  | [], _ => rfl
  | f :: rest, h => by
      rw [List.foldl_cons, boundsStep_skipped none f (h f (List.mem_cons_self f rest))]
      exact boundsForFeatures_all_skipped rest (fun g hg => h g (List.mem_cons_of_mem f hg))

/-- C9: a feature whose `geometry` or `coordinates` is missing/falsy is
skipped wherever it occurs in the list; when every feature is skipped (in
particular for the empty list) the computed bounds is null; and in that
case the `#fit` handler performs no `fitBounds` call.  All functions
involved are total, so no input can crash the computation. -/
theorem c9_bounds_degenerate_safety :
    (∀ (l1 l2 : List Feature) (f : Feature), featureSkipped f = true →
       boundsForFeatures (l1 ++ f :: l2) = boundsForFeatures (l1 ++ l2)) ∧
    (∀ feats : List Feature, (∀ f ∈ feats, featureSkipped f = true) →
       boundsForFeatures feats = none) ∧
    boundsForFeatures [] = none ∧
    (∀ (st : FilterStateMapbox) (feats : List Feature),
       boundsForFeatures
           (feats.filter (fun f => passesFiltersMapbox st (f.properties.getD {}))) = none →
         fitClickMapbox st feats = none) := by
  refine ⟨?_, boundsForFeatures_all_skipped, rfl, ?_⟩
  · intro l1 l2 f hf
    unfold boundsForFeatures
    rw [List.foldl_append, List.foldl_append, List.foldl_cons,
      boundsStep_skipped _ f hf]
  · intro st feats h
    unfold fitClickMapbox
    dsimp only
    rw [h]

/-- Witness for `c9_bounds_degenerate_safety`: a single feature with no
geometry yields null bounds and no fit call. -/
theorem c9_bounds_degenerate_safety_witness :
    featureSkipped { geometry := none } = true ∧
    boundsForFeatures [{ geometry := none }] = none ∧
    fitClickMapbox ⟨"", "", ""⟩ [{ geometry := none }] = none := by
  refine ⟨rfl, ?_, ?_⟩
  · have h := c9_bounds_degenerate_safety.1 [] [] { geometry := none } rfl
    simpa using h
  · refine c9_bounds_degenerate_safety.2.2.2 ⟨"", "", ""⟩ [{ geometry := none }] ?_
    have h := c9_bounds_degenerate_safety.2.1
      [({ geometry := none } : Feature)] (fun f hf => by
        rcases List.mem_singleton.mp hf with rfl
        rfl)
    simpa using h

theorem mem_replaceAllChar {c : Char} (s : String) (pat : Char) (repl : String) :
    c ∈ (replaceAllChar s pat repl).data ↔
      ∃ a ∈ s.data, c ∈ (if a = pat then repl.data else [a]) := by
  unfold replaceAllChar
  exact List.mem_flatMap

theorem pat_not_mem_replaceAllChar (s : String) (pat : Char) (repl : String)
    (h : pat ∉ repl.data) : pat ∉ (replaceAllChar s pat repl).data := by
  rw [mem_replaceAllChar]
  rintro ⟨a, _, hc⟩
  by_cases ha : a = pat
  · rw [if_pos ha] at hc
    exact h hc
  · rw [if_neg ha] at hc
    exact ha (List.mem_singleton.mp hc).symm

theorem not_mem_replaceAllChar (s : String) (pat : Char) (repl : String) (c : Char)
    (hs : c ∉ s.data) (hr : c ∉ repl.data) : c ∉ (replaceAllChar s pat repl).data := by
  rw [mem_replaceAllChar]
  rintro ⟨a, ha, hc⟩
  by_cases hap : a = pat
  · rw [if_pos hap] at hc
    exact hr hc
  · rw [if_neg hap] at hc
    rw [List.mem_singleton.mp hc] at hs
    exact hs ha

theorem lt_not_mem_escapeHtml (s : String) : '<' ∉ (escapeHtml s).data := by
  unfold escapeHtml
  apply not_mem_replaceAllChar
  · apply not_mem_replaceAllChar
    · apply not_mem_replaceAllChar
      · exact pat_not_mem_replaceAllChar _ '<' "&lt;" (by decide)
      · decide
    · decide
  · decide

theorem gt_not_mem_escapeHtml (s : String) : '>' ∉ (escapeHtml s).data := by
  unfold escapeHtml
  apply not_mem_replaceAllChar
  · apply not_mem_replaceAllChar
    · exact pat_not_mem_replaceAllChar _ '>' "&gt;" (by decide)
    · decide
  · decide

theorem quot_not_mem_escapeHtml (s : String) : '"' ∉ (escapeHtml s).data := by
  unfold escapeHtml
  apply not_mem_replaceAllChar
  · exact pat_not_mem_replaceAllChar _ '"' "&quot;" (by decide)
  · decide

theorem apos_not_mem_escapeHtml (s : String) : '\'' ∉ (escapeHtml s).data :=
  pat_not_mem_replaceAllChar _ '\'' "&#039;" (by decide)

theorem quot_not_mem_escapeAttr (s : String) : '"' ∉ (escapeAttr s).data :=
  pat_not_mem_replaceAllChar _ '"' "%22" (by decide)

theorem mem_joinSep (c : Char) (sep : String) :
    ∀ l : List String, c ∈ (joinSep sep l).data ↔
      ((∃ x ∈ l, c ∈ x.data) ∨ (2 ≤ l.length ∧ c ∈ sep.data))
  | [] => by simp [joinSep]
  | [a] => by simp [joinSep]
  | a :: b :: rest => by
      rw [show joinSep sep (a :: b :: rest) = a ++ (sep ++ joinSep sep (b :: rest)) from by
        rw [joinSep]; rw [String.append_assoc]]
      simp only [String.data_append, List.mem_append, mem_joinSep c sep (b :: rest),
        List.length_cons, List.mem_cons]
      constructor
      · rintro (h | h | (⟨x, hx, hc⟩ | ⟨_, hsep⟩))
        · exact Or.inl ⟨a, Or.inl rfl, h⟩
        · exact Or.inr ⟨by omega, h⟩
        · exact Or.inl ⟨x, Or.inr hx, hc⟩
        · exact Or.inr ⟨by omega, hsep⟩
      · rintro (⟨x, rfl | hx, hc⟩ | ⟨_, hsep⟩)
        · exact Or.inl hc
        · exact Or.inr (Or.inr (Or.inl ⟨x, hx, hc⟩))
        · exact Or.inr (Or.inl hsep)

theorem quot_mem_popupHtml_iff (p : TourProps) :
    '"' ∈ (popupHtml p).data ↔ p.gpx.getD "" ≠ "" := by
  unfold popupHtml
  dsimp only
  rw [mem_joinSep]
  constructor
  · rintro (⟨x, hx, hc⟩ | ⟨_, hsep⟩)
    · obtain ⟨hx1, _⟩ := List.mem_filter.mp hx
      simp only [List.mem_cons, List.not_mem_nil, or_false] at hx1
      rcases hx1 with rfl | rfl | rfl | rfl | rfl | rfl
      · simp only [String.data_append, List.mem_append] at hc
        rcases hc with (hc | hc) | hc
        · exact absurd hc (by decide)
        · exact absurd hc (quot_not_mem_escapeHtml _)
        · exact absurd hc (by decide)
      · by_cases hr : p.region.getD "" ≠ ""
        · rw [if_pos hr] at hc
          exact absurd hc (quot_not_mem_escapeHtml _)
        · rw [if_neg hr] at hc
          exact absurd hc (by decide)
      · by_cases hd : jsOrS (p.direction.getD "") (jsOrS (p.direcrtion.getD "") "") ≠ ""
        · rw [if_pos hd] at hc
          exact absurd hc (quot_not_mem_escapeHtml _)
        · rw [if_neg hd] at hc
          exact absurd hc (by decide)
      · cases hv : p.vert_m with
        | none =>
            rw [hv] at hc
            exact absurd hc (by decide)
        | some n =>
            rw [hv] at hc
            simp only [String.data_append, List.mem_append] at hc
            rcases hc with (hc | hc) | hc
            · exact absurd hc (by decide)
            · exact absurd hc (quot_not_mem_escapeHtml _)
            · exact absurd hc (by decide)
      · cases hv : p.distance_km with
        | none =>
            rw [hv] at hc
            exact absurd hc (by decide)
        | some n =>
            rw [hv] at hc
            simp only [String.data_append, List.mem_append] at hc
            rcases hc with (hc | hc) | hc
            · exact absurd hc (by decide)
            · exact absurd hc (quot_not_mem_escapeHtml _)
            · exact absurd hc (by decide)
      · by_cases hg : p.gpx.getD "" ≠ ""
        · exact hg
        · rw [if_neg hg] at hc
          exact absurd hc (by decide)
    · exact absurd hsep (by decide)
  · intro hg
    left
    refine ⟨"<a href=\"" ++ escapeAttr (p.gpx.getD "") ++
      "\" target=\"_blank\" rel=\"noopener\">Download GPX</a>", ?_, ?_⟩
    · refine List.mem_filter.mpr ⟨?_, ?_⟩
      · rw [if_pos hg]
        simp
      · refine decide_eq_true ?_
        intro hx0
        have hdata := congrArg String.data hx0
        simp only [String.data_append, List.append_eq_nil] at hdata
        exact absurd hdata.1.1 (by decide)
    · simp only [String.data_append, List.mem_append]
      exact Or.inl (Or.inl (by decide))

/-- C10: `escapeHtml` output never contains a raw `<`, `>`, `"` or `'`
(each such input character becomes its entity), `escapeAttr` output never
contains a raw `"`, and in `popupHtml` every property-derived string goes
through the appropriate escaper: the only double quotes ever present in the
popup markup are the static attribute delimiters of the GPX anchor, so the
popup contains a `"` exactly when a GPX link is rendered. -/
theorem c10_popup_escaping :
    (∀ s : String,
       '<' ∉ (escapeHtml s).data ∧ '>' ∉ (escapeHtml s).data ∧
       '"' ∉ (escapeHtml s).data ∧ '\'' ∉ (escapeHtml s).data) ∧
    escapeHtml "&" = "&amp;" ∧ escapeHtml "<" = "&lt;" ∧ escapeHtml ">" = "&gt;" ∧
    escapeHtml "\"" = "&quot;" ∧ escapeHtml "'" = "&#039;" ∧
    (∀ s : String, '"' ∉ (escapeAttr s).data) ∧
    (∀ p : TourProps, '"' ∈ (popupHtml p).data ↔ p.gpx.getD "" ≠ "") :=
  ⟨fun s => ⟨lt_not_mem_escapeHtml s, gt_not_mem_escapeHtml s, quot_not_mem_escapeHtml s,
     apos_not_mem_escapeHtml s⟩,
   by decide, by decide, by decide, by decide, by decide,
   quot_not_mem_escapeAttr, quot_mem_popupHtml_iff⟩

/-- Witness for `c10_popup_escaping` on concrete malicious inputs. -/
theorem c10_popup_escaping_witness :
    '<' ∉ (escapeHtml "a<b\"c'd>e").data ∧
    '"' ∉ (escapeAttr "x\"y").data ∧
    ((some "a\"b.gpx" : Option String).getD "" ≠ "") ∧
    '"' ∈ (popupHtml { gpx := some "a\"b.gpx" }).data :=
  ⟨(c10_popup_escaping.1 "a<b\"c'd>e").1,
   c10_popup_escaping.2.2.2.2.2.2.1 "x\"y",
   by decide,
   (c10_popup_escaping.2.2.2.2.2.2.2 { gpx := some "a\"b.gpx" }).mpr (by decide)⟩
